import Mathlib

/-!
# A model of `fusewrap.py`

A shallow embedding of the fusewrap command-line tool (src/fusewrap.py).
File contents are passed in explicitly: a file that cannot be opened is
`none`, an opened file is `some` of its list of lines (each line keeping
its trailing newline, as Python's `readline`/`readlines` produce them).
Child processes, directory creation/removal and printing are recorded as
an explicit list of `Effect`s; Python exceptions become the `PyErr` type,
and a function that can raise returns `Except PyErr`.
-/

namespace Fusewrap

/-- The whitespace characters Python's `str.split()` (no argument) splits on. -/
def pyIsSpace (c : Char) : Bool :=
  c == ' ' || c == '\t' || c == '\n' || c == '\r' || c == '\x0b' || c == '\x0c'

/-- Helper for `pySplit`: `acc` holds the current (reversed) run of
non-whitespace characters. -/
def splitWsAux : List Char → List Char → List String
  | [], acc => if acc.isEmpty then [] else [String.mk acc.reverse]
  | c :: cs, acc =>
    if pyIsSpace c then
      if acc.isEmpty then splitWsAux cs [] else String.mk acc.reverse :: splitWsAux cs []
    else splitWsAux cs (c :: acc)

/-- Python's `str.split()` with no separator: split on runs of whitespace,
never returning empty fields. -/
def pySplit (s : String) : List String :=
  splitWsAux s.data []

/-- `List.isPrefixOf` on characters, by explicit recursion so that it
computes by `decide`/`rfl`. -/
def isPrefixList : List Char → List Char → Bool
  | [], _ => true
  | _ :: _, [] => false
  | a :: as, b :: bs => a == b && isPrefixList as bs

/-- Python's `s.startswith(pre)`. -/
def pyStartsWith (s pre : String) : Bool :=
  isPrefixList pre.data s.data

/-- Python's `sep.join(args)`. -/
def pyJoin (sep : String) : List String → String
  | [] => ""
  | [x] => x
  | x :: y :: xs => x ++ sep ++ pyJoin sep (y :: xs)

/-- Paths are modelled by their string rendering; `pathlib`'s `/` operator
is `pathJoin`. -/
abbrev Path := String

/-- `root / name` for a single relative component. -/
def pathJoin (root : Path) (name : String) : Path :=
  root ++ "/" ++ name

/-- `class FuseMount`: one record of the mount-table snapshot (only the
mount-point path is kept, as in the source). -/
structure FuseMount where
  path : Path
  deriving DecidableEq, Repr

/-- `class SSHostname`: a host alias declared in the SSH configuration. -/
structure SSHostname where
  name : String
  deriving DecidableEq, Repr

/-- `SSHostname.get_path`: the local mount point `root / name`. -/
def SSHostname.get_path (self : SSHostname) (root : Path) : Path :=
  pathJoin root self.name

/-- `SSHostname.get_mount_root`: the remote specification `f'{name}:/'`. -/
def SSHostname.get_mount_root (self : SSHostname) : String :=
  self.name ++ ":/"

/-- `SSHostname.is_mounted`: whether the alias's local mount point equals
the path of some snapshot record. -/
def SSHostname.is_mounted (self : SSHostname) (root : Path) (fuses : List FuseMount) : Bool :=
  fuses.any (fun fuse => self.get_path root == fuse.path)

/-- A Python value an `SSHostname` may be compared against: another
`SSHostname`, or a value of any other kind. -/
inductive PyObj where
  | hostname (h : SSHostname)
  | other (tag : String)

/-- `SSHostname.__eq__`: equality by name against its own kind, a
`TypeError` (here: `.error`) against anything else. -/
def SSHostname.eq (self : SSHostname) : PyObj → Except String Bool
  | .hostname obj => .ok (obj.name == self.name)
  | .other _ => .error "Wants SSHostname"

/-- The Python exceptions the program distinguishes: its own
`FuseWrapException` (carrying the message), `OSError` from a failed
`open`, `IndexError` from an out-of-range list subscript, and
`KeyboardInterrupt`. -/
inductive PyErr where
  | fuseWrapException (msg : String)
  | osError (msg : String)
  | indexError
  | keyboardInterrupt
  deriving DecidableEq, Repr

/-- Whether an exception is the tool's own `FuseWrapException`. -/
def PyErr.isFuseWrap : PyErr → Bool
  | .fuseWrapException _ => true
  | _ => false

/-- Python's list subscript `xs[i]`: `IndexError` when out of range. -/
def pyIndex {α : Type} : List α → Nat → Except PyErr α
  | [], _ => .error .indexError
  | a :: _, 0 => .ok a
  | _ :: as, n + 1 => pyIndex as n

/-- The observable side effects `mount`/`umount` perform, in order. -/
inductive Effect where
  | print (line : String)
  | makedirs (path : Path)
  | spawnWait (args : List String)
  | rmdir (path : Path)
  deriving DecidableEq, Repr

/-- Body of `FuseWrap._get_fuse_mounts`' loop over the lines of
`/proc/mounts`: keep `tokens[1]` of every line whose `tokens[2]` is
`fuse.sshfs`; a line with too few fields raises `IndexError`. -/
def fuseMountsOfLines : List String → Except PyErr (List FuseMount)
  | [] => .ok []
  | line :: rest =>
    match pyIndex (pySplit line) 2 with
    | .error e => .error e
    | .ok fstype =>
      if fstype == "fuse.sshfs" then
        match pyIndex (pySplit line) 1 with
        | .error e => .error e
        | .ok mp =>
          match fuseMountsOfLines rest with
          | .error e => .error e
          | .ok ms => .ok (⟨mp⟩ :: ms)
      else fuseMountsOfLines rest

/-- `FuseWrap._get_fuse_mounts`: `open('/proc/mounts')` then the loop;
an unopenable mount table raises `OSError`. -/
def FuseWrap.get_fuse_mounts : Option (List String) → Except PyErr (List FuseMount)
  | none => .error (.osError "could not open /proc/mounts")
  | some lines => fuseMountsOfLines lines

/-- Body of `FuseWrap._get_hostnames`' `readline` loop: for every line
that `startswith('Host')`, keep `line.split()[1]`; a matching line with a
single field raises `IndexError`. -/
def hostnamesOfLines : List String → Except PyErr (List SSHostname)
  | [] => .ok []
  | line :: rest =>
    if pyStartsWith line "Host" then
      match pyIndex (pySplit line) 1 with
      | .error e => .error e
      | .ok tok =>
        match hostnamesOfLines rest with
        | .error e => .error e
        | .ok hs => .ok (⟨tok⟩ :: hs)
    else hostnamesOfLines rest

/-- `FuseWrap._get_hostnames`: `open(path)` then the loop; an unopenable
configuration file raises `OSError`. -/
def FuseWrap.get_hostnames : Option (List String) → Except PyErr (List SSHostname)
  | none => .error (.osError "could not open ssh config")
  | some lines => hostnamesOfLines lines

/-- `class FuseWrap`: the state captured by `__init__`. -/
structure FuseWrap where
  mount_path : Path
  ssh_cfg_path : Path
  fuse_mounts : List FuseMount
  hosts : List SSHostname
  deriving DecidableEq, Repr

/-- `DEFAULT_SSH_CFG_PATH = HOME_PATH / '.ssh/config'`. -/
def DEFAULT_SSH_CFG_PATH (home : Path) : Path :=
  pathJoin home ".ssh/config"

/-- `FuseWrap.__init__`: reads the mount table, then the SSH
configuration (in that order), given their contents (`none` when the file
cannot be opened). -/
def FuseWrap.init (home : Path) (mount_dir_path : Path)
    (procMounts : Option (List String)) (sshCfg : Option (List String)) :
    Except PyErr FuseWrap :=
  match FuseWrap.get_fuse_mounts procMounts with
  | .error e => .error e
  | .ok fuse_mounts =>
    match FuseWrap.get_hostnames sshCfg with
    | .error e => .error e
    | .ok hosts =>
      .ok { mount_path := mount_dir_path, ssh_cfg_path := DEFAULT_SSH_CFG_PATH home,
            fuse_mounts := fuse_mounts, hosts := hosts }

/-- `FuseWrap._check_host`: `some` exception when the alias is not in
the configured list (list membership via `__eq__`, i.e. by name). -/
def FuseWrap.check_host (fw : FuseWrap) (hostname : SSHostname) : Option PyErr :=
  if fw.hosts.contains hostname then
    none
  else
    some (.fuseWrapException
      ("There is no " ++ hostname.name ++ " hostname in " ++ fw.ssh_cfg_path))

/-- `FuseWrap.get_mounted`: the configured aliases whose mount root is in
the snapshot, in configuration order. -/
def FuseWrap.get_mounted (fw : FuseWrap) : List SSHostname :=
  fw.hosts.filter (fun hostname => hostname.is_mounted fw.mount_path fw.fuse_mounts)

/-- `FuseWrap.get_unmounted`: the configured aliases whose mount root is
not in the snapshot, in configuration order. -/
def FuseWrap.get_unmounted (fw : FuseWrap) : List SSHostname :=
  fw.hosts.filter (fun hostname => !hostname.is_mounted fw.mount_path fw.fuse_mounts)

/-- `'"{}"'.format(' '.join(args))`, the line `mount`/`umount` print. -/
def quotedArgs (args : List String) : String :=
  "\"" ++ pyJoin " " args ++ "\""

/-- `FuseWrap.mount`: the effects performed (in order) and the exception
raised, if any. -/
def FuseWrap.mount (fw : FuseWrap) (host : SSHostname) :
    List Effect × Option PyErr :=
  match fw.check_host host with
  | some e => ([], some e)
  | none =>
    let mount_point := host.get_path fw.mount_path
    if fw.get_mounted.contains host then
      ([], some (.fuseWrapException
        ("Host " ++ host.name ++ " already mounted in " ++ mount_point)))
    else
      let args := ["sshfs", host.get_mount_root, mount_point]
      ([.makedirs mount_point, .print (quotedArgs args), .spawnWait args], none)

/-- `FuseWrap.umount`: the effects performed (in order) and the exception
raised, if any. -/
def FuseWrap.umount (fw : FuseWrap) (host : SSHostname) :
    List Effect × Option PyErr :=
  match fw.check_host host with
  | some e => ([], some e)
  | none =>
    let mount_point := host.get_path fw.mount_path
    if fw.get_unmounted.contains host then
      ([], some (.fuseWrapException ("Host " ++ host.name ++ " already unmounted")))
    else
      let args := ["fusermount", "-u", mount_point]
      ([.print (quotedArgs args), .spawnWait args, .rmdir mount_point], none)

/-- What `main` makes of a finished job. -/
inductive Outcome where
  | finished
  | stderrLine (line : String)
  | stdoutLine (line : String)
  | uncaught (e : PyErr)
  deriving DecidableEq, Repr

/-- The `try`/`except` at the bottom of `main`: a `FuseWrapException` is
printed to standard error as `ERR: <message>`, a `KeyboardInterrupt`
prints `Job canceled`, and every other exception propagates uncaught. -/
def mainHandle : Except PyErr Unit → Outcome
  | .ok _ => .finished
  | .error (.fuseWrapException msg) => .stderrLine ("ERR: " ++ msg)
  | .error .keyboardInterrupt => .stdoutLine "Job canceled"
  | .error e => .uncaught e

/-- Total field access used by the spec-side definitions below: the
`n`-th whitespace-separated token, `""` when there is none. -/
def tokenAt : List String → Nat → String
  | [], _ => ""
  | a :: _, 0 => a
  | _ :: as, n + 1 => tokenAt as n

/-- Modelled from the spec's words (Config Reader contract): the token
following each line beginning with the host-declaration keyword, in file
order. Compared with `FuseWrap.get_hostnames`, which is the code's. -/
def configReaderSpec (lines : List String) : List SSHostname :=
  (lines.filter (fun l => pyStartsWith l "Host")).map (fun l => ⟨tokenAt (pySplit l) 1⟩)

/-- Modelled from the spec's words (Mount Inspector contract): the
records, in table order, whose filesystem-type field (the third) matches
the driver signature, each record keeping the mount-point field (the
second). Compared with `FuseWrap.get_fuse_mounts`, which is the code's. -/
def mountInspectorSpec (lines : List String) : List FuseMount :=
  (lines.filter (fun l => tokenAt (pySplit l) 2 == "fuse.sshfs")).map
    (fun l => ⟨tokenAt (pySplit l) 1⟩)

/-! ## Helper lemmas -/

theorem pyIndex_eq_tokenAt :
    ∀ (l : List String) (n : Nat), n < l.length → pyIndex l n = .ok (tokenAt l n)
  | _ :: _, 0, _ => rfl
  | _ :: as, n + 1, h => pyIndex_eq_tokenAt as n (Nat.lt_of_succ_lt_succ h)

theorem pyIndex_err {α : Type} (l : List α) (n : Nat) (h : l.length ≤ n) :
    pyIndex l n = .error .indexError := by
  induction l generalizing n with
  | nil => rfl
  | cons a as ih =>
    cases n with
    | zero => simp at h
    | succ n => exact ih n (Nat.le_of_succ_le_succ h)

theorem pyIndex_error {α : Type} :
    ∀ (l : List α) (n : Nat) {e : PyErr}, pyIndex l n = .error e → e = .indexError
  | [], _, _, h => (Except.error.inj h).symm
  | _ :: _, 0, _, h => Except.noConfusion h
  | _ :: as, n + 1, _, h => pyIndex_error as n h

theorem SSHostname.name_inj {a b : SSHostname} : a.name = b.name ↔ a = b := by
  cases a
  cases b
  simp

theorem mem_iff_name (l : List SSHostname) (a : SSHostname) :
    a ∈ l ↔ a.name ∈ l.map SSHostname.name := by
  rw [List.mem_map]
  constructor
  · intro ha
    exact ⟨a, ha, rfl⟩
  · rintro ⟨b, hb, hname⟩
    exact (SSHostname.name_inj.mp hname) ▸ hb

theorem is_mounted_iff (h : SSHostname) (root : Path) (fuses : List FuseMount) :
    h.is_mounted root fuses = true ↔
      pathJoin root h.name ∈ fuses.map FuseMount.path := by
  simp only [SSHostname.is_mounted, SSHostname.get_path, List.any_eq_true, beq_iff_eq,
    List.mem_map]
  constructor
  · rintro ⟨f, hf, he⟩
    exact ⟨f, hf, he.symm⟩
  · rintro ⟨f, hf, he⟩
    exact ⟨f, hf, he.symm⟩

theorem mem_get_mounted (fw : FuseWrap) (host : SSHostname)
    (hmem : host.name ∈ fw.hosts.map SSHostname.name) :
    host ∈ fw.get_mounted ↔
      host.is_mounted fw.mount_path fw.fuse_mounts = true := by
  rw [FuseWrap.get_mounted, List.mem_filter]
  simp [(mem_iff_name _ _).mpr hmem]

theorem mem_get_unmounted (fw : FuseWrap) (host : SSHostname)
    (hmem : host.name ∈ fw.hosts.map SSHostname.name) :
    host ∈ fw.get_unmounted ↔
      host.is_mounted fw.mount_path fw.fuse_mounts = false := by
  rw [FuseWrap.get_unmounted, List.mem_filter]
  simp [(mem_iff_name _ _).mpr hmem]

theorem check_host_of_mem (fw : FuseWrap) (host : SSHostname)
    (hmem : host.name ∈ fw.hosts.map SSHostname.name) :
    fw.check_host host = none := by
  simp [FuseWrap.check_host, (mem_iff_name _ _).mpr hmem]

theorem check_host_of_not_mem (fw : FuseWrap) (host : SSHostname)
    (hnot : host.name ∉ fw.hosts.map SSHostname.name) :
    fw.check_host host = some (.fuseWrapException
      ("There is no " ++ host.name ++ " hostname in " ++ fw.ssh_cfg_path)) := by
  have hm : host ∉ fw.hosts := fun hmem => hnot ((mem_iff_name _ _).mp hmem)
  simp [FuseWrap.check_host, hm]

theorem fuseMountsOfLines_error :
    ∀ (lines : List String) {e : PyErr},
      fuseMountsOfLines lines = .error e → e = .indexError := by
  intro lines
  induction lines with
  | nil => intro e h; exact Except.noConfusion h
  | cons line rest ih =>
    intro e h
    rcases hp : pyIndex (pySplit line) 2 with e2 | fstype
    · simp only [fuseMountsOfLines, hp] at h
      exact (Except.error.inj h) ▸ pyIndex_error _ _ hp
    · simp only [fuseMountsOfLines, hp] at h
      by_cases hf : (fstype == "fuse.sshfs") = true
      · rw [if_pos hf] at h
        rcases hq : pyIndex (pySplit line) 1 with e1 | mp
        · rw [hq] at h
          exact (Except.error.inj h) ▸ pyIndex_error _ _ hq
        · rw [hq] at h
          rcases hr : fuseMountsOfLines rest with er | ms
          · rw [hr] at h
            exact (Except.error.inj h) ▸ ih hr
          · rw [hr] at h
            exact Except.noConfusion h
      · rw [if_neg hf] at h
        exact ih h

theorem fuseMountsOfLines_ok (lines : List String)
    (h : ∀ l ∈ lines, 3 ≤ (pySplit l).length) :
    fuseMountsOfLines lines = .ok (mountInspectorSpec lines) := by
  induction lines with
  | nil => rfl
  | cons line rest ih =>
    have hrest := ih (fun x hx => h x (List.mem_cons_of_mem _ hx))
    have hlen : 3 ≤ (pySplit line).length := h line (List.mem_cons_self _ _)
    have hidx2 : pyIndex (pySplit line) 2 = .ok (tokenAt (pySplit line) 2) :=
      pyIndex_eq_tokenAt _ 2 hlen
    have hidx1 : pyIndex (pySplit line) 1 = .ok (tokenAt (pySplit line) 1) :=
      pyIndex_eq_tokenAt _ 1 (Nat.lt_of_lt_of_le (by decide) hlen)
    rcases hf : tokenAt (pySplit line) 2 == "fuse.sshfs" with _ | _
    · simp only [fuseMountsOfLines, mountInspectorSpec, List.filter_cons, hidx2, hidx1, hf,
        hrest, Bool.false_eq_true, if_false]
    · simp only [fuseMountsOfLines, mountInspectorSpec, List.filter_cons, hidx2, hidx1, hf,
        hrest, if_true]
      simp [mountInspectorSpec]

theorem fuseMountsOfLines_err_of_short (lines : List String)
    (h : ∃ l ∈ lines, (pySplit l).length < 3) :
    fuseMountsOfLines lines = .error .indexError := by
  induction lines with
  | nil => rcases h with ⟨l, hl, _⟩; cases hl
  | cons line rest ih =>
    rcases h with ⟨l, hl, hshort⟩
    rcases List.mem_cons.mp hl with rfl | hl'
    · have hp : pyIndex (pySplit l) 2 = .error .indexError :=
        pyIndex_err _ _ (Nat.le_of_lt_succ hshort)
      simp only [fuseMountsOfLines, hp]
    · have htail := ih ⟨l, hl', hshort⟩
      rcases hp : pyIndex (pySplit line) 2 with e2 | fstype
      · have he2 : e2 = PyErr.indexError := pyIndex_error _ _ hp
        simp only [fuseMountsOfLines, hp, he2]
      · by_cases hf : (fstype == "fuse.sshfs") = true
        · rcases hq : pyIndex (pySplit line) 1 with e1 | mp
          · have he1 : e1 = PyErr.indexError := pyIndex_error _ _ hq
            simp only [fuseMountsOfLines, hp, if_pos hf, hq, he1]
          · simp only [fuseMountsOfLines, hp, if_pos hf, hq, htail]
        · simp only [fuseMountsOfLines, hp, if_neg hf, htail]

theorem hostnamesOfLines_ok (lines : List String)
    (h : ∀ l ∈ lines, pyStartsWith l "Host" = true → 2 ≤ (pySplit l).length) :
    hostnamesOfLines lines = .ok (configReaderSpec lines) := by
  induction lines with
  | nil => rfl
  | cons line rest ih =>
    have hrest := ih (fun x hx hs => h x (List.mem_cons_of_mem _ hx) hs)
    by_cases hs : pyStartsWith line "Host" = true
    · have hidx : pyIndex (pySplit line) 1 = .ok (tokenAt (pySplit line) 1) :=
        pyIndex_eq_tokenAt _ 1 (h line (List.mem_cons_self _ _) hs)
      simp only [hostnamesOfLines, configReaderSpec, List.filter_cons, hs, hidx, hrest,
        if_true]
      simp [configReaderSpec]
    · simp only [hostnamesOfLines, configReaderSpec, List.filter_cons, hs, hrest]
      simp [configReaderSpec, hs]

/-! ## The claims -/

/-- C1 (amended): the errors the code raises as its own
`FuseWrapException` — unknown host, already mounted, already unmounted —
are recovered at the top level of `main` and rendered to standard error
as a single line `ERR: <message>`; but a failure to open the SSH
configuration file (or the mount table) raises an OS-level error that
`main` does not catch, so it propagates uncaught instead of being
rendered. -/
theorem main_error_rendering :
    (∀ msg, mainHandle (.error (.fuseWrapException msg)) = .stderrLine ("ERR: " ++ msg)) ∧
    (∀ (fw : FuseWrap) (host : SSHostname),
      ((fw.mount host).2.all PyErr.isFuseWrap) = true) ∧
    (∀ (fw : FuseWrap) (host : SSHostname),
      ((fw.umount host).2.all PyErr.isFuseWrap) = true) ∧
    ∀ (home mount_dir_path : Path) (procMounts : Option (List String)),
      ∃ e, FuseWrap.init home mount_dir_path procMounts none = .error e ∧
        mainHandle (.error e) = .uncaught e := by
  refine ⟨fun msg => rfl, fun fw host => ?_, fun fw host => ?_,
    fun home mount_dir_path procMounts => ?_⟩
  · by_cases hc : host ∈ fw.hosts
    · by_cases hm : host ∈ fw.get_mounted <;>
        simp [FuseWrap.mount, FuseWrap.check_host, hc, hm, PyErr.isFuseWrap, Option.all]
    · simp [FuseWrap.mount, FuseWrap.check_host, hc, PyErr.isFuseWrap, Option.all]
  · by_cases hc : host ∈ fw.hosts
    · by_cases hm : host ∈ fw.get_unmounted <;>
        simp [FuseWrap.umount, FuseWrap.check_host, hc, hm, PyErr.isFuseWrap, Option.all]
    · simp [FuseWrap.umount, FuseWrap.check_host, hc, PyErr.isFuseWrap, Option.all]
  · rcases hm : FuseWrap.get_fuse_mounts procMounts with e | ms
    · refine ⟨e, by simp [FuseWrap.init, hm], ?_⟩
      rcases procMounts with _ | lines
      · have he : PyErr.osError "could not open /proc/mounts" = e := Except.error.inj hm
        rw [← he]
        rfl
      · have he : e = .indexError := fuseMountsOfLines_error lines hm
        rw [he]
        rfl
    · exact ⟨.osError "could not open ssh config", by simp [FuseWrap.init, hm,
        FuseWrap.get_hostnames], rfl⟩

/-- C1, counterexample to the claim as stated: an invocation whose SSH
configuration file cannot be opened ends in an uncaught `OSError`, not in
an `ERR:` line on standard error, so not all four errors of the spec's
taxonomy are recovered at the top level. -/
theorem read_error_not_recovered :
    FuseWrap.init "/home/user" "/home/user/mnt" (some []) none =
      .error (.osError "could not open ssh config") ∧
    mainHandle (.error (.osError "could not open ssh config")) =
      .uncaught (.osError "could not open ssh config") ∧
    ∀ line, mainHandle (.error (.osError "could not open ssh config")) ≠
      .stderrLine line := by
  refine ⟨rfl, rfl, fun line h => ?_⟩
  rw [show mainHandle (.error (.osError "could not open ssh config")) =
    .uncaught (.osError "could not open ssh config") from rfl] at h
  exact Outcome.noConfusion h

/-- C2 (amended): on every configuration file in which each line
beginning with `Host` has a second whitespace-separated token, the config
reader returns exactly the token following the keyword of each such line,
in file order. -/
theorem get_hostnames_eq_configReaderSpec (lines : List String)
    (h : ∀ l ∈ lines, pyStartsWith l "Host" = true → 2 ≤ (pySplit l).length) :
    FuseWrap.get_hostnames (some lines) = .ok (configReaderSpec lines) :=
  hostnamesOfLines_ok lines h

/-- C2, witness: the reader agrees with the spec-side extraction on a
concrete configuration file. -/
theorem get_hostnames_eq_configReaderSpec_witness :
    (∀ l ∈ ["Host web\n", "# a comment\n", "Host db backup\n"],
      pyStartsWith l "Host" = true → 2 ≤ (pySplit l).length) ∧
    FuseWrap.get_hostnames (some ["Host web\n", "# a comment\n", "Host db backup\n"]) =
      .ok (configReaderSpec ["Host web\n", "# a comment\n", "Host db backup\n"]) :=
  ⟨by decide, get_hostnames_eq_configReaderSpec _ (by decide)⟩

/-- C2, counterexample to the claim as stated: on a configuration file
whose `Host` line has no following token the reader raises `IndexError`
and returns no sequence at all. -/
theorem get_hostnames_indexError :
    FuseWrap.get_hostnames (some ["Host\n"]) = .error .indexError ∧
    ∀ hs, FuseWrap.get_hostnames (some ["Host\n"]) ≠ .ok hs := by
  refine ⟨rfl, fun hs h => ?_⟩
  rw [show FuseWrap.get_hostnames (some ["Host\n"]) = .error .indexError from rfl] at h
  exact Except.noConfusion h

/-- C3: `mount` fails with the unknown-host error (and performs no
effect) when the alias is not configured; fails with the already-mounted
error (and performs no effect) when the alias's mount root is in the
snapshot; otherwise creates the mount-root directory and spawns the mount
binary with arguments `(alias:/, mount_base/alias)`. -/
theorem mount_cases (fw : FuseWrap) (host : SSHostname) :
    (host.name ∉ fw.hosts.map SSHostname.name →
      fw.mount host = ([], some (.fuseWrapException
        ("There is no " ++ host.name ++ " hostname in " ++ fw.ssh_cfg_path)))) ∧
    (host.name ∈ fw.hosts.map SSHostname.name →
      pathJoin fw.mount_path host.name ∈ fw.fuse_mounts.map FuseMount.path →
      fw.mount host = ([], some (.fuseWrapException
        ("Host " ++ host.name ++ " already mounted in " ++
          pathJoin fw.mount_path host.name)))) ∧
    (host.name ∈ fw.hosts.map SSHostname.name →
      pathJoin fw.mount_path host.name ∉ fw.fuse_mounts.map FuseMount.path →
      fw.mount host =
        ([.makedirs (pathJoin fw.mount_path host.name),
          .print (quotedArgs ["sshfs", host.name ++ ":/",
            pathJoin fw.mount_path host.name]),
          .spawnWait ["sshfs", host.name ++ ":/",
            pathJoin fw.mount_path host.name]], none)) := by
  refine ⟨fun hnot => ?_, fun hmem hpresent => ?_, fun hmem habsent => ?_⟩
  · simp [FuseWrap.mount, check_host_of_not_mem fw host hnot]
  · have him : host ∈ fw.get_mounted :=
      (mem_get_mounted fw host hmem).mpr ((is_mounted_iff _ _ _).mpr hpresent)
    simp [FuseWrap.mount, check_host_of_mem fw host hmem, him, SSHostname.get_path]
  · have him : host ∉ fw.get_mounted := fun hin =>
      habsent ((is_mounted_iff _ _ _).mp ((mem_get_mounted fw host hmem).mp hin))
    simp [FuseWrap.mount, check_host_of_mem fw host hmem, him, SSHostname.get_path,
      SSHostname.get_mount_root]

/-- C4: `umount` fails with the unknown-host error when the alias is not
configured; fails with the already-unmounted error (and performs no
effect) when the alias's mount root is not in the snapshot; otherwise
spawns the unmount binary on the mount root, waits, and then removes the
mount-root directory. -/
theorem umount_cases (fw : FuseWrap) (host : SSHostname) :
    (host.name ∉ fw.hosts.map SSHostname.name →
      fw.umount host = ([], some (.fuseWrapException
        ("There is no " ++ host.name ++ " hostname in " ++ fw.ssh_cfg_path)))) ∧
    (host.name ∈ fw.hosts.map SSHostname.name →
      pathJoin fw.mount_path host.name ∉ fw.fuse_mounts.map FuseMount.path →
      fw.umount host = ([], some (.fuseWrapException
        ("Host " ++ host.name ++ " already unmounted")))) ∧
    (host.name ∈ fw.hosts.map SSHostname.name →
      pathJoin fw.mount_path host.name ∈ fw.fuse_mounts.map FuseMount.path →
      fw.umount host =
        ([.print (quotedArgs ["fusermount", "-u", pathJoin fw.mount_path host.name]),
          .spawnWait ["fusermount", "-u", pathJoin fw.mount_path host.name],
          .rmdir (pathJoin fw.mount_path host.name)], none)) := by
  refine ⟨fun hnot => ?_, fun hmem habsent => ?_, fun hmem hpresent => ?_⟩
  · simp [FuseWrap.umount, check_host_of_not_mem fw host hnot]
  · have hun : host ∈ fw.get_unmounted := by
      refine (mem_get_unmounted fw host hmem).mpr (Bool.eq_false_iff.mpr fun hm => ?_)
      exact habsent ((is_mounted_iff _ _ _).mp hm)
    simp [FuseWrap.umount, check_host_of_mem fw host hmem, hun, SSHostname.get_path]
  · have hun : host ∉ fw.get_unmounted := fun hin => by
      have := (mem_get_unmounted fw host hmem).mp hin
      rw [(is_mounted_iff _ _ _).mpr hpresent] at this
      exact Bool.noConfusion this
    simp [FuseWrap.umount, check_host_of_mem fw host hmem, hun, SSHostname.get_path]

/-- C5: the mounted and the unmounted aliases together are exactly the
configured alias list (as a multiset), and no alias is in both lists. -/
theorem mounted_unmounted_partition (fw : FuseWrap) :
    ((fw.get_mounted : Multiset SSHostname) + (fw.get_unmounted : Multiset SSHostname) =
      (fw.hosts : Multiset SSHostname)) ∧
    ∀ h : SSHostname, h ∈ fw.get_mounted → h ∉ fw.get_unmounted := by
  constructor
  · simp only [FuseWrap.get_mounted, FuseWrap.get_unmounted]
    rw [Multiset.coe_add, Multiset.coe_eq_coe]
    exact List.filter_append_perm _ _
  · intro h hm hu
    have h1 := (List.mem_filter.mp hm).2
    have h2 := (List.mem_filter.mp hu).2
    rw [h1] at h2
    exact Bool.noConfusion h2

/-- C6: an alias is classified as mounted exactly when its mount root
`mount_base / alias_name` equals the path of some snapshot record. -/
theorem is_mounted_iff_mount_root_mem (h : SSHostname) (root : Path)
    (fuses : List FuseMount) :
    h.is_mounted root fuses = true ↔ ∃ fm ∈ fuses, pathJoin root h.name = fm.path := by
  rw [is_mounted_iff]
  simp only [List.mem_map]
  constructor
  · rintro ⟨fm, hfm, he⟩
    exact ⟨fm, hfm, he.symm⟩
  · rintro ⟨fm, hfm, he⟩
    exact ⟨fm, hfm, he.symm⟩

/-- C7 (amended): on every mount-table content in which each line has at
least three whitespace-separated fields, the inspector returns exactly
the records whose filesystem-type field is the driver signature, one per
matching line, in line order. -/
theorem get_fuse_mounts_eq_mountInspectorSpec (lines : List String)
    (h : ∀ l ∈ lines, 3 ≤ (pySplit l).length) :
    FuseWrap.get_fuse_mounts (some lines) = .ok (mountInspectorSpec lines) :=
  fuseMountsOfLines_ok lines h

/-- C7, witness: the inspector agrees with the spec-side filter on a
concrete two-line mount table. -/
theorem get_fuse_mounts_eq_mountInspectorSpec_witness :
    (∀ l ∈ ["h1:/ /mnt/h1 fuse.sshfs rw 0 0\n", "proc /proc proc rw 0 0\n"],
      3 ≤ (pySplit l).length) ∧
    FuseWrap.get_fuse_mounts
        (some ["h1:/ /mnt/h1 fuse.sshfs rw 0 0\n", "proc /proc proc rw 0 0\n"]) =
      .ok (mountInspectorSpec
        ["h1:/ /mnt/h1 fuse.sshfs rw 0 0\n", "proc /proc proc rw 0 0\n"]) :=
  ⟨by decide, get_fuse_mounts_eq_mountInspectorSpec _ (by decide)⟩

/-- C7, counterexample to the claim as stated: on a table consisting of
one empty line the inspector raises `IndexError` and returns no sequence
at all. -/
theorem get_fuse_mounts_indexError :
    FuseWrap.get_fuse_mounts (some ["\n"]) = .error .indexError ∧
    ∀ ms, FuseWrap.get_fuse_mounts (some ["\n"]) ≠ .ok ms := by
  refine ⟨rfl, fun ms h => ?_⟩
  rw [show FuseWrap.get_fuse_mounts (some ["\n"]) = .error .indexError from rfl] at h
  exact Except.noConfusion h

/-- C8: comparing two host aliases returns true exactly when their names
are equal, and comparing an alias against a value of any other kind
raises a type-mismatch error instead of returning false. -/
theorem eq_by_name_and_type_error :
    (∀ a b : SSHostname, SSHostname.eq a (.hostname b) = .ok true ↔ a.name = b.name) ∧
    ∀ (a : SSHostname) (s : String),
      SSHostname.eq a (.other s) = .error "Wants SSHostname" := by
  refine ⟨fun a b => ?_, fun a s => rfl⟩
  simp only [SSHostname.eq, Except.ok.injEq]
  constructor
  · intro h
    exact (beq_iff_eq.mp h).symm
  · intro h
    exact beq_iff_eq.mpr h.symm

/-- C9: with hosts `[web, db]` and an empty mount table, `get_mounted`
is `[]` and `get_unmounted` is `[web, db]`; with one snapshot record at
`base/web`, `get_mounted` is `[web]`. -/
theorem list_web_db_example :
    (FuseWrap.init "/h" "base" (some []) (some ["Host web\n", "Host db\n"])).map
        (fun fw => (fw.get_mounted, fw.get_unmounted)) =
      .ok ([], [⟨"web"⟩, ⟨"db"⟩]) ∧
    (FuseWrap.init "/h" "base" (some ["server:/ base/web fuse.sshfs rw 0 0\n"])
        (some ["Host web\n", "Host db\n"])).map FuseWrap.get_mounted =
      .ok [⟨"web"⟩] :=
  ⟨rfl, rfl⟩

/-- C10: the mount-table inspection returns normally on every table whose
lines all have at least three whitespace-separated fields, it fails with
`IndexError` on every table containing a line with fewer, and in
particular it fails on a table consisting of a single empty line. -/
theorem get_fuse_mounts_totality :
    (∀ lines : List String, (∀ l ∈ lines, 3 ≤ (pySplit l).length) →
      ∃ ms, FuseWrap.get_fuse_mounts (some lines) = .ok ms) ∧
    (∀ lines : List String, (∃ l ∈ lines, (pySplit l).length < 3) →
      FuseWrap.get_fuse_mounts (some lines) = .error .indexError) ∧
    FuseWrap.get_fuse_mounts (some ["\n"]) = .error .indexError :=
  ⟨fun lines h => ⟨mountInspectorSpec lines, fuseMountsOfLines_ok lines h⟩,
    fun lines h => fuseMountsOfLines_err_of_short lines h, rfl⟩

end Fusewrap
